import Mathlib

/-!
Verification of the Landmark Aggregation & Adjustment Engine of the
face-parts-manipulator application.

The Python source (`src/src/app.py`, with the anatomical validator taken from
`src/src/app_final.py`) is embedded shallowly:

* `Point` models the coordinate dictionaries `{'x': float, 'y': float}`;
  floating-point numbers are modelled as exact rationals (`ℚ`).
* `AdjState` models the `st.session_state.manual_adjustments` dictionary.
  Its keys always range over the six predefined landmark groups, so it is
  a structure with one `Option Point` field per group; Python dictionary
  equality (used by the history dedup check) is structural equality.
* `Session` models the triple of session fields
  (`manual_adjustments`, `adjustment_history`, `adjustment_redo_stack`).
  Lists keep the Python list order: index 0 is the oldest entry and the
  top of a stack is the *last* element, matching `list.append` / `pop()` /
  `pop(0)` in the source.
* Fallible operations (`undo`, the coordinate transforms, which can raise
  `ZeroDivisionError`) return `Option`/`Except`.
-/

set_option autoImplicit false

namespace FaceParts

/-- A coordinate dictionary `{'x': float, 'y': float}` (floats as exact rationals). -/
structure Point where
  x : ℚ
  y : ℚ
deriving DecidableEq, Repr

/-- The six landmark groups predefined in `AppConfig.LANDMARK_GROUPS`. -/
inductive GroupName where
  | left_eye_center
  | right_eye_center
  | nose_tip
  | nose_bridge
  | left_nostril
  | right_nostril
deriving DecidableEq, Repr

/-- All six group names, in the dictionary's insertion order from the source. -/
def GroupName.all : List GroupName :=
  [.left_eye_center, .right_eye_center, .nose_tip, .nose_bridge, .left_nostril, .right_nostril]

/-- `AppConfig.LANDMARK_GROUPS`: raw landmark indices averaged per group
(`app.py` lines 37-44). -/
def GroupName.indices : GroupName → List Nat
  | .left_eye_center => [159, 158, 157, 173]
  | .right_eye_center => [386, 385, 384, 398]
  | .nose_tip => [1, 2]
  | .nose_bridge => [6, 9]
  | .left_nostril => [131, 134, 126]
  | .right_nostril => [102, 49, 48]

/-- `AppConfig.MAX_HISTORY_SIZE` (`app.py` line 33). -/
def MAX_HISTORY_SIZE : Nat := 20

/-- The `st.session_state.manual_adjustments` dictionary: at most one manual
override per landmark group. -/
structure AdjState where
  left_eye_center : Option Point := none
  right_eye_center : Option Point := none
  nose_tip : Option Point := none
  nose_bridge : Option Point := none
  left_nostril : Option Point := none
  right_nostril : Option Point := none
deriving DecidableEq, Repr

/-- Dictionary lookup `manual_adjustments.get(name)`. -/
def AdjState.get (s : AdjState) : GroupName → Option Point
  | .left_eye_center => s.left_eye_center
  | .right_eye_center => s.right_eye_center
  | .nose_tip => s.nose_tip
  | .nose_bridge => s.nose_bridge
  | .left_nostril => s.left_nostril
  | .right_nostril => s.right_nostril

/-- Dictionary update `manual_adjustments[name] = point`. -/
def AdjState.set (s : AdjState) (g : GroupName) (p : Point) : AdjState :=
  match g with
  | .left_eye_center => { s with left_eye_center := some p }
  | .right_eye_center => { s with right_eye_center := some p }
  | .nose_tip => { s with nose_tip := some p }
  | .nose_bridge => { s with nose_bridge := some p }
  | .left_nostril => { s with left_nostril := some p }
  | .right_nostril => { s with right_nostril := some p }

/-- `adjustments.items()`: the present overrides as a key/value list. -/
def AdjState.items (s : AdjState) : List (GroupName × Point) :=
  GroupName.all.filterMap (fun g => (s.get g).map (fun p => (g, p)))

/-- The session fields that make up the adjustment/history state
(`initialize_session_state`, `app.py` lines 564-572). -/
structure Session where
  manual_adjustments : AdjState
  adjustment_history : List AdjState
  adjustment_redo_stack : List AdjState
deriving DecidableEq, Repr

/-- The freshly initialised session: no overrides, empty stacks. -/
def initial_session : Session :=
  { manual_adjustments := {}, adjustment_history := [], adjustment_redo_stack := [] }

/-- `save_adjustment_to_history` (`app.py` lines 1011-1029): snapshot the current
adjustments; skip when equal to the top of the undo stack (dedup); otherwise
clear the redo stack, evict the oldest undo entry at capacity, and push. -/
def save_adjustment_to_history (s : Session) : Session :=
  let current_state := s.manual_adjustments
  if s.adjustment_history.getLast? = some current_state then
    s
  else
    let history1 :=
      if MAX_HISTORY_SIZE ≤ s.adjustment_history.length then
        s.adjustment_history.drop 1
      else
        s.adjustment_history
    { s with
      adjustment_redo_stack := []
      adjustment_history := history1 ++ [current_state] }

/-- A single override application `st.session_state.manual_adjustments[name] = coords`
(`app.py` line 995, and the precision-adjustment path line 672). -/
def apply_adjustment (s : Session) (g : GroupName) (p : Point) : Session :=
  { s with manual_adjustments := s.manual_adjustments.set g p }

/-- `undo_last_adjustment` (`app.py` lines 768-790): fail on empty history;
otherwise push the current adjustments onto the redo stack (evicting its oldest
entry above capacity), pop the undo stack and install the popped snapshot. -/
def undo_last_adjustment (s : Session) : Option Session :=
  match s.adjustment_history.getLast? with
  | none => none
  | some previous_state =>
    let redo1 := s.adjustment_redo_stack ++ [s.manual_adjustments]
    let redo2 := if MAX_HISTORY_SIZE < redo1.length then redo1.drop 1 else redo1
    some
      { manual_adjustments := previous_state
        adjustment_history := s.adjustment_history.dropLast
        adjustment_redo_stack := redo2 }

/-- The reset button and the image-change detector (`app.py` lines 602-605 and
726-728): clear the overrides and both stacks. -/
def reset_adjustments (_ : Session) : Session :=
  initial_session

/-- Modelled from the spec: no front end in the repository implements a redo
operation (the redo stack is written by `undo_last_adjustment` and cleared by
`save_adjustment_to_history` but never read back). Following the spec's
`redo() -> AdjustmentState | Failure(NoRedo)`: pop the redo stack's top, push
the current adjustment state onto the undo stack (with the same capacity
eviction as `undo`), and install the popped snapshot as the current state. -/
def redo_modelled (s : Session) : Option Session :=
  match s.adjustment_redo_stack.getLast? with
  | none => none
  | some next_state =>
    let history1 := s.adjustment_history ++ [s.manual_adjustments]
    let history2 := if MAX_HISTORY_SIZE < history1.length then history1.drop 1 else history1
    some
      { manual_adjustments := next_state
        adjustment_history := history2
        adjustment_redo_stack := s.adjustment_redo_stack.dropLast }

/-- Session states reachable through the operations the front end actually
exposes: initialisation, snapshot, override application, undo, and reset. -/
inductive Reachable : Session → Prop where
  | init : Reachable initial_session
  | snapshot {s : Session} : Reachable s → Reachable (save_adjustment_to_history s)
  | apply {s : Session} (g : GroupName) (p : Point) :
      Reachable s → Reachable (apply_adjustment s g p)
  | undo {s s' : Session} : Reachable s → undo_last_adjustment s = some s' → Reachable s'
  | reset {s : Session} : Reachable s → Reachable (reset_adjustments s)

/-- Session states reachable through snapshot-then-apply cycles only
(every `apply` preceded by a `snapshot()`), as in the drag-commit path. -/
inductive CycleReach : Session → Prop where
  | init : CycleReach initial_session
  | cycle {s : Session} (g : GroupName) (p : Point) :
      CycleReach s → CycleReach (apply_adjustment (save_adjustment_to_history s) g p)

/-! ### History invariants -/

/-- Adjacent entries of a snapshot list are pairwise distinct.  The dedup check
in `save_adjustment_to_history` maintains this for the undo stack. -/
def adjacentDistinct : List AdjState → Prop
  | [] => True
  | [_] => True
  | a :: b :: l => a ≠ b ∧ adjacentDistinct (b :: l)

lemma adjacentDistinct_tail {a : AdjState} {l : List AdjState}
    (h : adjacentDistinct (a :: l)) : adjacentDistinct l := by
  cases l with
  | nil => trivial
  | cons b t => exact h.2

lemma getLast?_cons_ne_nil {α : Type} (x : α) {t : List α} (ht : t ≠ []) :
    (x :: t).getLast? = t.getLast? := by
  cases t with
  | nil => exact absurd rfl ht
  | cons y t' => exact List.getLast?_cons_cons

lemma adjacentDistinct_concat (l : List AdjState) (c : AdjState) :
    adjacentDistinct (l ++ [c]) ↔
      adjacentDistinct l ∧ ∀ a, l.getLast? = some a → a ≠ c := by
  induction l with
  | nil => simp [adjacentDistinct]
  | cons x t ih =>
    cases t with
    | nil =>
      simp only [List.nil_append, List.singleton_append, adjacentDistinct,
        List.getLast?_singleton]
      constructor
      · rintro ⟨hxc, -⟩
        exact ⟨trivial, fun a ha => by cases ha; exact hxc⟩
      · rintro ⟨-, h⟩
        exact ⟨h x rfl, trivial⟩
    | cons y t' =>
      have hne : (y :: t') ++ [c] ≠ [] := by simp
      simp only [List.cons_append, adjacentDistinct] at *
      rw [List.getLast?_cons_cons]
      constructor
      · rintro ⟨hxy, h2⟩
        obtain ⟨h3, h4⟩ := ih.mp h2
        exact ⟨⟨hxy, h3⟩, h4⟩
      · rintro ⟨⟨hxy, h3⟩, h4⟩
        exact ⟨hxy, ih.mpr ⟨h3, h4⟩⟩

lemma adjacentDistinct_drop_one {l : List AdjState}
    (h : adjacentDistinct l) : adjacentDistinct (l.drop 1) := by
  cases l with
  | nil => trivial
  | cons x t => exact adjacentDistinct_tail h

lemma adjacentDistinct_dropLast {l : List AdjState}
    (h : adjacentDistinct l) : adjacentDistinct l.dropLast := by
  induction l using List.reverseRecOn with
  | nil => trivial
  | append_singleton l' c _ =>
    rw [List.dropLast_concat]
    exact ((adjacentDistinct_concat l' c).mp h).1

lemma getLast?_drop_one {α : Type} {l : List α} (h : l.drop 1 ≠ []) :
    (l.drop 1).getLast? = l.getLast? := by
  cases l with
  | nil => simp at h
  | cons x t => simpa using (getLast?_cons_ne_nil x (by simpa using h)).symm

/-- The last two entries of an adjacent-distinct list differ. -/
lemma adjacentDistinct_last_two {l : List AdjState} {a b : AdjState}
    (h : adjacentDistinct l) (ha : l.getLast? = some a)
    (hb : l.dropLast.getLast? = some b) : b ≠ a := by
  induction l with
  | nil => simp at ha
  | cons x t ih =>
    cases t with
    | nil => simp at hb
    | cons y t' =>
      rw [List.getLast?_cons_cons] at ha
      rw [List.dropLast_cons₂] at hb
      cases t' with
      | nil =>
        simp at ha hb
        subst ha
        subst hb
        exact h.1
      | cons z t'' =>
        rw [getLast?_cons_ne_nil x (by simp)] at hb
        exact ih (adjacentDistinct_tail h) ha hb

/-- `save_adjustment_to_history` when the dedup check fires: no change. -/
lemma save_dedup {s : Session}
    (hd : s.adjustment_history.getLast? = some s.manual_adjustments) :
    save_adjustment_to_history s = s := by
  simp [save_adjustment_to_history, hd]

/-- `save_adjustment_to_history` when the dedup check does not fire: the redo
stack is cleared and the snapshot is pushed (evicting the oldest at capacity). -/
lemma save_push {s : Session}
    (hd : s.adjustment_history.getLast? ≠ some s.manual_adjustments) :
    save_adjustment_to_history s =
      { s with
        adjustment_redo_stack := []
        adjustment_history :=
          (if MAX_HISTORY_SIZE ≤ s.adjustment_history.length then
            s.adjustment_history.drop 1
          else
            s.adjustment_history) ++ [s.manual_adjustments] } := by
  simp [save_adjustment_to_history, hd]

/-- Successful `undo_last_adjustment`, destructured. -/
lemma undo_some {s s' : Session} (hu : undo_last_adjustment s = some s') :
    s.adjustment_history ≠ [] ∧
    s.adjustment_history.getLast? = some s'.manual_adjustments ∧
    s'.adjustment_history = s.adjustment_history.dropLast ∧
    s'.adjustment_redo_stack =
      (if MAX_HISTORY_SIZE < (s.adjustment_redo_stack ++ [s.manual_adjustments]).length
      then (s.adjustment_redo_stack ++ [s.manual_adjustments]).drop 1
      else s.adjustment_redo_stack ++ [s.manual_adjustments]) := by
  cases hl : s.adjustment_history.getLast? with
  | none =>
    rw [undo_last_adjustment, hl] at hu
    exact absurd hu (by simp)
  | some prev =>
    rw [undo_last_adjustment, hl] at hu
    simp only [Option.some.injEq] at hu
    subst hu
    refine ⟨?_, rfl, rfl, rfl⟩
    intro hnil
    rw [hnil] at hl
    simp at hl

/-- Invariants of every code-reachable session: both stacks are bounded by
`MAX_HISTORY_SIZE` and the undo stack never holds two equal adjacent snapshots. -/
lemma reachable_invariant {s : Session} (h : Reachable s) :
    s.adjustment_history.length ≤ MAX_HISTORY_SIZE ∧
    s.adjustment_redo_stack.length ≤ MAX_HISTORY_SIZE ∧
    adjacentDistinct s.adjustment_history := by
  induction h with
  | init => exact ⟨by simp [initial_session], by simp [initial_session], trivial⟩
  | @snapshot s _ ih =>
    obtain ⟨h1, h2, h3⟩ := ih
    by_cases hd : s.adjustment_history.getLast? = some s.manual_adjustments
    · rw [save_dedup hd]
      exact ⟨h1, h2, h3⟩
    · rw [save_push hd]
      refine ⟨?_, by simp, ?_⟩
      · have hM : MAX_HISTORY_SIZE = 20 := rfl
        simp only [List.length_append, List.length_singleton]
        split
        · simp only [List.length_drop]
          omega
        · omega
      · simp only
        rw [adjacentDistinct_concat]
        split
        · refine ⟨adjacentDistinct_drop_one h3, fun a ha => ?_⟩
          by_cases hnil : s.adjustment_history.drop 1 = []
          · simp [hnil] at ha
          · rw [getLast?_drop_one hnil] at ha
            intro hac
            exact hd (hac ▸ ha)
        · exact ⟨h3, fun a ha hac => hd (hac ▸ ha)⟩
  | apply g p _ ih => exact ih
  | @undo s s' _ hu ih =>
    obtain ⟨h1, h2, h3⟩ := ih
    obtain ⟨-, -, hh, hr⟩ := undo_some hu
    refine ⟨?_, ?_, hh ▸ adjacentDistinct_dropLast h3⟩
    · rw [hh]
      simp only [List.length_dropLast]
      omega
    · have hM : MAX_HISTORY_SIZE = 20 := rfl
      rw [hr]
      split
      · rename_i hc
        simp only [List.length_drop, List.length_append, List.length_singleton] at hc ⊢
        omega
      · rename_i hc
        simp only [List.length_append, List.length_singleton] at hc ⊢
        omega
  | reset _ _ =>
    exact ⟨by simp [reset_adjustments, initial_session],
      by simp [reset_adjustments, initial_session], trivial⟩

lemma cycleReach_reachable {s : Session} (h : CycleReach s) : Reachable s := by
  induction h with
  | init => exact .init
  | cycle g p _ ih => exact .apply g p (.snapshot ih)

/-- Through snapshot-then-apply cycles only, the redo stack stays empty. -/
lemma cycleReach_redo_empty {s : Session} (h : CycleReach s) :
    s.adjustment_redo_stack = [] := by
  induction h with
  | init => rfl
  | @cycle s g p _ ih =>
    show (save_adjustment_to_history s).adjustment_redo_stack = []
    by_cases hd : s.adjustment_history.getLast? = some s.manual_adjustments
    · rw [save_dedup hd]
      exact ih
    · rw [save_push hd]

/-- C1: on any history state built from snapshot-then-apply cycles, one `undo`
followed by one (spec-modelled) `redo` restores the adjustment state exactly;
`redo` pushes the pre-redo current state onto the undo stack and installs the
popped snapshot, and it fails exactly when the redo stack is empty. -/
theorem claim1_undo_redo_inverse (s t : Session) (hs : CycleReach s)
    (hne : s.adjustment_history ≠ []) :
    (∃ s₁ s₂, undo_last_adjustment s = some s₁ ∧ redo_modelled s₁ = some s₂ ∧
      s₂.manual_adjustments = s.manual_adjustments ∧
      s₂.adjustment_history = s₁.adjustment_history ++ [s₁.manual_adjustments]) ∧
    (redo_modelled t = none ↔ t.adjustment_redo_stack = []) := by
  constructor
  · have hredo : s.adjustment_redo_stack = [] := cycleReach_redo_empty hs
    have hlen := (reachable_invariant (cycleReach_reachable hs)).1
    have hpos : 0 < s.adjustment_history.length := List.length_pos.mpr hne
    obtain ⟨prev, hl⟩ : ∃ prev, s.adjustment_history.getLast? = some prev := by
      cases hg : s.adjustment_history.getLast? with
      | none => exact absurd (List.getLast?_eq_none_iff.mp hg) hne
      | some v => exact ⟨v, rfl⟩
    have hM : MAX_HISTORY_SIZE = 20 := rfl
    have hu : undo_last_adjustment s = some
        { manual_adjustments := prev
          adjustment_history := s.adjustment_history.dropLast
          adjustment_redo_stack := [s.manual_adjustments] } := by
      rw [undo_last_adjustment, hl, hredo]
      simp [hM]
    have hcap : ¬ MAX_HISTORY_SIZE < s.adjustment_history.length - 1 + 1 := by
      omega
    have hr : redo_modelled
        { manual_adjustments := prev
          adjustment_history := s.adjustment_history.dropLast
          adjustment_redo_stack := [s.manual_adjustments] } = some
        { manual_adjustments := s.manual_adjustments
          adjustment_history := s.adjustment_history.dropLast ++ [prev]
          adjustment_redo_stack := [] } := by
      rw [redo_modelled]
      simp [hcap]
    exact ⟨_, _, hu, hr, rfl, rfl⟩
  · constructor
    · intro hn
      cases htr : t.adjustment_redo_stack.getLast? with
      | none => exact List.getLast?_eq_none_iff.mp htr
      | some v =>
        rw [redo_modelled, htr] at hn
        simp at hn
    · intro hts
      rw [redo_modelled, hts]
      rfl

/-- Witness for C1 at the concrete state after one snapshot-then-apply cycle. -/
theorem claim1_undo_redo_inverse_witness :
    (∃ s₁ s₂,
      undo_last_adjustment
        (apply_adjustment (save_adjustment_to_history initial_session)
          GroupName.nose_tip ⟨1, 2⟩) = some s₁ ∧
      redo_modelled s₁ = some s₂ ∧
      s₂.manual_adjustments =
        (apply_adjustment (save_adjustment_to_history initial_session)
          GroupName.nose_tip ⟨1, 2⟩).manual_adjustments ∧
      s₂.adjustment_history = s₁.adjustment_history ++ [s₁.manual_adjustments]) ∧
    (redo_modelled initial_session = none ↔
      initial_session.adjustment_redo_stack = []) :=
  claim1_undo_redo_inverse _ initial_session
    (CycleReach.cycle GroupName.nose_tip ⟨1, 2⟩ CycleReach.init) (by decide)

/-- C4: after a successful `undo` followed by a fresh snapshot-then-apply edit,
the redo stack is empty (the snapshot's dedup check cannot fire right after an
undo, so the snapshot always clears the redo stack). -/
theorem claim4_redo_invalidation (s s' : Session) (g : GroupName) (p : Point)
    (hs : Reachable s) (hu : undo_last_adjustment s = some s') :
    (apply_adjustment (save_adjustment_to_history s') g p).adjustment_redo_stack = [] := by
  obtain ⟨-, -, h3⟩ := reachable_invariant hs
  obtain ⟨-, hlast, hh, -⟩ := undo_some hu
  have hd : s'.adjustment_history.getLast? ≠ some s'.manual_adjustments := by
    intro hcontra
    rw [hh] at hcontra
    exact adjacentDistinct_last_two h3 hlast hcontra rfl
  rw [show (apply_adjustment (save_adjustment_to_history s') g p).adjustment_redo_stack
      = (save_adjustment_to_history s').adjustment_redo_stack from rfl]
  rw [save_push hd]

/-- Witness for C4 at the concrete state after one snapshot-then-apply cycle. -/
theorem claim4_redo_invalidation_witness :
    (apply_adjustment
      (save_adjustment_to_history
        { manual_adjustments := {}
          adjustment_history := []
          adjustment_redo_stack := [{ nose_tip := some ⟨1, 2⟩ }] })
      GroupName.nose_bridge ⟨3, 4⟩).adjustment_redo_stack = [] :=
  claim4_redo_invalidation
    (apply_adjustment (save_adjustment_to_history initial_session)
      GroupName.nose_tip ⟨1, 2⟩)
    { manual_adjustments := {}
      adjustment_history := []
      adjustment_redo_stack := [{ nose_tip := some ⟨1, 2⟩ }] }
    GroupName.nose_bridge ⟨3, 4⟩
    (Reachable.apply GroupName.nose_tip ⟨1, 2⟩ (Reachable.snapshot Reachable.init))
    (by decide)

/-! ### Capacity eviction (C3) -/

/-- The override applied by the k-th snapshot-then-apply cycle below. -/
def cycPoint (k : Nat) : Point := ⟨(k : ℚ), 0⟩

/-- `cyc n`: the session after `n` snapshot-then-apply cycles, where cycle `k`
moves `nose_tip` to a fresh coordinate `(k, 0)` (so no two cycle states are
equal and the dedup check never fires). -/
def cyc : Nat → Session
  | 0 => initial_session
  | n + 1 =>
    apply_adjustment (save_adjustment_to_history (cyc n)) GroupName.nose_tip
      (cycPoint (n + 1))

/-- Closed form of the adjustment state after `k` cycles. -/
def adjAfter (k : Nat) : AdjState :=
  if k = 0 then {} else { nose_tip := some (cycPoint k) }

lemma adjAfter_inj {a b : Nat} (h : adjAfter a = adjAfter b) : a = b := by
  by_cases ha : a = 0 <;> by_cases hb : b = 0 <;>
    simp [adjAfter, ha, hb, cycPoint, AdjState.mk.injEq, Point.mk.injEq] at h <;>
    omega

lemma getLast?_drop_of_lt {α : Type} {l : List α} {k : Nat} (h : k < l.length) :
    (l.drop k).getLast? = l.getLast? := by
  have hne : l.drop k ≠ [] := by
    intro hc
    have := congrArg List.length hc
    simp only [List.length_drop, List.length_nil] at this
    omega
  conv_rhs => rw [← List.take_append_drop k l]
  rw [List.getLast?_append_of_ne_nil _ hne]

/-- Closed form of `cyc`: the adjustments, the empty redo stack, and the undo
stack as the last (at most 20) pre-edit snapshots, oldest evicted first. -/
lemma cyc_spec (n : Nat) :
    (cyc n).manual_adjustments = adjAfter n ∧
    (cyc n).adjustment_redo_stack = [] ∧
    (cyc n).adjustment_history =
      ((List.range n).map adjAfter).drop (n - MAX_HISTORY_SIZE) := by
  have hM : MAX_HISTORY_SIZE = 20 := rfl
  induction n with
  | zero => exact ⟨rfl, rfl, rfl⟩
  | succ n ih =>
    obtain ⟨hadj, hredo, hhist⟩ := ih
    have hdedup : (cyc n).adjustment_history.getLast? ≠
        some (cyc n).manual_adjustments := by
      rw [hhist, hadj]
      cases n with
      | zero => simp
      | succ m =>
        have hlt : (m + 1) - MAX_HISTORY_SIZE < ((List.range (m + 1)).map adjAfter).length := by
          simp only [List.length_map, List.length_range]
          omega
        rw [getLast?_drop_of_lt hlt, List.range_succ, List.map_append, List.map_singleton,
          List.getLast?_concat]
        intro hc
        have := adjAfter_inj (Option.some.injEq _ _ ▸ hc)
        omega
    have hlen : (cyc n).adjustment_history.length = n - (n - MAX_HISTORY_SIZE) := by
      rw [hhist]
      simp [List.length_drop]
    have hsave := save_push hdedup
    constructor
    · show ((save_adjustment_to_history (cyc n)).manual_adjustments.set
        GroupName.nose_tip (cycPoint (n + 1))) = adjAfter (n + 1)
      rw [hsave]
      show ((cyc n).manual_adjustments.set GroupName.nose_tip (cycPoint (n + 1)))
        = adjAfter (n + 1)
      rw [hadj]
      by_cases hn : n = 0 <;> simp [adjAfter, AdjState.set, hn]
    constructor
    · show (save_adjustment_to_history (cyc n)).adjustment_redo_stack = []
      rw [hsave]
    · show (save_adjustment_to_history (cyc n)).adjustment_history =
        ((List.range (n + 1)).map adjAfter).drop ((n + 1) - MAX_HISTORY_SIZE)
      rw [hsave]
      show (if MAX_HISTORY_SIZE ≤ (cyc n).adjustment_history.length then
          (cyc n).adjustment_history.drop 1
        else (cyc n).adjustment_history) ++ [(cyc n).manual_adjustments] =
        ((List.range (n + 1)).map adjAfter).drop ((n + 1) - MAX_HISTORY_SIZE)
      have hrange : (List.range (n + 1)).map adjAfter =
          (List.range n).map adjAfter ++ [adjAfter n] := by
        rw [List.range_succ, List.map_append, List.map_singleton]
      have hdrople : (n + 1) - MAX_HISTORY_SIZE ≤ ((List.range n).map adjAfter).length := by
        simp only [List.length_map, List.length_range]
        omega
      rw [hrange, List.drop_append_of_le_length hdrople, hadj]
      by_cases hcap : MAX_HISTORY_SIZE ≤ (cyc n).adjustment_history.length
      · rw [if_pos hcap, hhist, List.drop_drop]
        have : (n - MAX_HISTORY_SIZE) + 1 = (n + 1) - MAX_HISTORY_SIZE := by
          rw [hlen] at hcap
          omega
        rw [this]
      · rw [if_neg hcap, hhist]
        have : n - MAX_HISTORY_SIZE = (n + 1) - MAX_HISTORY_SIZE := by
          rw [hlen] at hcap
          omega
        rw [this]

/-- C3: every code-reachable state keeps both stacks within `MAX_HISTORY_SIZE`
(20); and after `n > 20` snapshot-then-apply cycles the undo stack holds
exactly the 20 most recent pre-edit snapshots (index 0, the oldest, is evicted
first), so the state preceding the 21st-most-recent edit — `adjAfter (n - 21)`,
the state after cycle `n - 21` — is no longer on the undo stack. -/
theorem claim3_history_capacity (s : Session) (n : Nat) (hs : Reachable s)
    (hn : MAX_HISTORY_SIZE < n) :
    (s.adjustment_history.length ≤ MAX_HISTORY_SIZE ∧
      s.adjustment_redo_stack.length ≤ MAX_HISTORY_SIZE) ∧
    ((cyc n).adjustment_history.length = MAX_HISTORY_SIZE ∧
      (cyc n).adjustment_history =
        ((List.range n).map adjAfter).drop (n - MAX_HISTORY_SIZE) ∧
      adjAfter (n - 21) ∉ (cyc n).adjustment_history) := by
  have hM : MAX_HISTORY_SIZE = 20 := rfl
  obtain ⟨h1, h2, -⟩ := reachable_invariant hs
  obtain ⟨-, -, hhist⟩ := cyc_spec n
  refine ⟨⟨h1, h2⟩, ?_, hhist, ?_⟩
  · rw [hhist]
    simp only [List.length_drop, List.length_map, List.length_range]
    omega
  · rw [hhist]
    intro hmem
    obtain ⟨j, hj, hget⟩ := List.mem_iff_getElem.mp hmem
    rw [List.getElem_drop] at hget
    have hjlt : (n - MAX_HISTORY_SIZE) + j < ((List.range n).map adjAfter).length := by
      simp only [List.length_drop] at hj
      omega
    have hidx : ∀ hp : (n - MAX_HISTORY_SIZE) + j < ((List.range n).map adjAfter).length,
        ((List.range n).map adjAfter)[(n - MAX_HISTORY_SIZE) + j] =
          adjAfter ((n - MAX_HISTORY_SIZE) + j) := by
      intro hp
      rw [List.getElem_map]
      rw [List.getElem_range]
    rw [hidx hjlt] at hget
    have := adjAfter_inj hget
    omega

/-- Witness for C3 at the initial session and `n = 21` cycles. -/
theorem claim3_history_capacity_witness :
    (initial_session.adjustment_history.length ≤ MAX_HISTORY_SIZE ∧
      initial_session.adjustment_redo_stack.length ≤ MAX_HISTORY_SIZE) ∧
    ((cyc 21).adjustment_history.length = MAX_HISTORY_SIZE ∧
      (cyc 21).adjustment_history =
        ((List.range 21).map adjAfter).drop (21 - MAX_HISTORY_SIZE) ∧
      adjAfter (21 - 21) ∉ (cyc 21).adjustment_history) :=
  claim3_history_capacity initial_session 21 Reachable.init (by decide)

/-! ### Coordinate conversion (C2, C7) -/

/-- `AppConfig.COORDINATE_PRECISION` (`app.py` line 34). -/
def COORDINATE_PRECISION : Nat := 6

/-- Python's `round(q, COORDINATE_PRECISION)`: round to 6 decimal places.
(The tie-breaking mode is immaterial to every property proved here, so the
half-away-from-even detail of Python's `round` is not modelled.) -/
def roundp (q : ℚ) : ℚ :=
  ((round (q * 10 ^ COORDINATE_PRECISION) : ℤ) : ℚ) / 10 ^ COORDINATE_PRECISION

/-- `CoordinateConverter.scale_to_canvas` (`app.py` lines 55-81): per-axis
linear scale from model (real) space to display (canvas) space.  Python
computes `canvas_w / real_w` and `canvas_h / real_h`, raising
`ZeroDivisionError` when a real dimension is zero; that is the `.error` case. -/
def scale_to_canvas (real_coords : Point) (real_size canvas_size : ℤ × ℤ) :
    Except String Point :=
  if real_size.1 = 0 ∨ real_size.2 = 0 then
    .error "ZeroDivisionError"
  else
    let scale_x : ℚ := (canvas_size.1 : ℚ) / (real_size.1 : ℚ)
    let scale_y : ℚ := (canvas_size.2 : ℚ) / (real_size.2 : ℚ)
    .ok ⟨roundp (real_coords.x * scale_x), roundp (real_coords.y * scale_y)⟩

/-- `CoordinateConverter.scale_to_real` (`app.py` lines 83-109): the inverse
per-axis scale.  It divides by the canvas dimensions, so `ZeroDivisionError`
arises exactly when a canvas dimension is zero. -/
def scale_to_real (canvas_coords : Point) (real_size canvas_size : ℤ × ℤ) :
    Except String Point :=
  if canvas_size.1 = 0 ∨ canvas_size.2 = 0 then
    .error "ZeroDivisionError"
  else
    let scale_x : ℚ := (real_size.1 : ℚ) / (canvas_size.1 : ℚ)
    let scale_y : ℚ := (real_size.2 : ℚ) / (canvas_size.2 : ℚ)
    .ok ⟨roundp (canvas_coords.x * scale_x), roundp (canvas_coords.y * scale_y)⟩

lemma abs_roundp_sub (q : ℚ) :
    |roundp q - q| ≤ 1 / (2 * 10 ^ COORDINATE_PRECISION) := by
  have h10 : (0 : ℚ) < 10 ^ COORDINATE_PRECISION := by positivity
  have hz := abs_sub_round (q * 10 ^ COORDINATE_PRECISION)
  rw [abs_sub_comm] at hz
  have hkey : roundp q - q =
      (((round (q * 10 ^ COORDINATE_PRECISION) : ℤ) : ℚ) -
        q * 10 ^ COORDINATE_PRECISION) / 10 ^ COORDINATE_PRECISION := by
    rw [roundp]
    field_simp
    ring
  rw [hkey, abs_div, abs_of_pos h10, div_le_div_iff₀ h10 (by positivity)]
  calc |((round (q * 10 ^ COORDINATE_PRECISION) : ℤ) : ℚ) -
        q * 10 ^ COORDINATE_PRECISION| * (2 * 10 ^ COORDINATE_PRECISION)
      ≤ (1 / 2) * (2 * 10 ^ COORDINATE_PRECISION) := by
        exact mul_le_mul_of_nonneg_right hz (by positivity)
    _ = 1 * 10 ^ COORDINATE_PRECISION := by ring

/-- The per-axis round trip through both 6-decimal roundings loses at most one
model unit when the model dimension is at most `10^6` times the display one. -/
lemma roundtrip_axis (x : ℚ) (r c : ℤ) (hr : 0 < r) (hc : 0 < c)
    (hratio : (r : ℚ) ≤ 1000000 * (c : ℚ)) :
    |roundp (roundp (x * ((c : ℚ) / (r : ℚ))) * ((r : ℚ) / (c : ℚ))) - x| ≤ 1 := by
  have hrq : (0 : ℚ) < (r : ℚ) := by exact_mod_cast hr
  have hcq : (0 : ℚ) < (c : ℚ) := by exact_mod_cast hc
  have h1 := abs_roundp_sub (x * ((c : ℚ) / (r : ℚ)))
  have h2 := abs_roundp_sub (roundp (x * ((c : ℚ) / (r : ℚ))) * ((r : ℚ) / (c : ℚ)))
  have key : roundp (x * ((c : ℚ) / (r : ℚ))) * ((r : ℚ) / (c : ℚ)) - x
      = (roundp (x * ((c : ℚ) / (r : ℚ))) - x * ((c : ℚ) / (r : ℚ))) *
        ((r : ℚ) / (c : ℚ)) := by
    field_simp
    ring
  have hrcpos : (0 : ℚ) < (r : ℚ) / (c : ℚ) := div_pos hrq hcq
  have hba : |roundp (x * ((c : ℚ) / (r : ℚ))) * ((r : ℚ) / (c : ℚ)) - x|
      ≤ (1 / (2 * 10 ^ COORDINATE_PRECISION)) * ((r : ℚ) / (c : ℚ)) := by
    rw [key, abs_mul, abs_of_pos hrcpos]
    exact mul_le_mul_of_nonneg_right h1 hrcpos.le
  have hrc : (r : ℚ) / (c : ℚ) ≤ 1000000 := by
    rw [div_le_iff₀ hcq]
    linarith
  have hC : (1 : ℚ) / (2 * 10 ^ COORDINATE_PRECISION) = 1 / 2000000 := by
    norm_num [COORDINATE_PRECISION]
  calc |roundp (roundp (x * ((c : ℚ) / (r : ℚ))) * ((r : ℚ) / (c : ℚ))) - x|
      ≤ |roundp (roundp (x * ((c : ℚ) / (r : ℚ))) * ((r : ℚ) / (c : ℚ))) -
          roundp (x * ((c : ℚ) / (r : ℚ))) * ((r : ℚ) / (c : ℚ))| +
        |roundp (x * ((c : ℚ) / (r : ℚ))) * ((r : ℚ) / (c : ℚ)) - x| :=
        abs_sub_le _ _ _
    _ ≤ 1 / (2 * 10 ^ COORDINATE_PRECISION) +
        (1 / (2 * 10 ^ COORDINATE_PRECISION)) * ((r : ℚ) / (c : ℚ)) :=
        add_le_add h2 hba
    _ ≤ 1 / 2000000 + (1 / 2000000) * 1000000 := by
        rw [hC]
        linarith
    _ ≤ 1 := by norm_num

/-- C2 counterexample: with positive sizes `realSize = (10^7, 10^7)` and
`canvasSize = (1, 1)`, the point `(3, 3)` rounds to `(0, 0)` on the canvas and
comes back as `(0, 0)`, an error of 3 model units per axis — more than 1. -/
theorem claim2_roundtrip_counterexample :
    scale_to_canvas ⟨3, 3⟩ (10000000, 10000000) (1, 1) = Except.ok ⟨0, 0⟩ ∧
    scale_to_real ⟨0, 0⟩ (10000000, 10000000) (1, 1) = Except.ok ⟨0, 0⟩ ∧
    ¬ |(0 : ℚ) - 3| ≤ 1 := by
  refine ⟨?_, ?_, by norm_num⟩ <;>
    · simp only [scale_to_canvas, scale_to_real, roundp, COORDINATE_PRECISION]
      norm_num [round_eq]

/-- C2 (amended): the display-then-model round trip is within 1.0 model unit
per axis for positive sizes, provided each model dimension is at most `10^6`
times the matching display dimension (the reciprocal of the 6-decimal rounding
precision); beyond that ratio the rounding can lose more than one unit. -/
theorem claim2_roundtrip_amended (p : Point) (real_size canvas_size : ℤ × ℤ)
    (hrw : 0 < real_size.1) (hrh : 0 < real_size.2)
    (hcw : 0 < canvas_size.1) (hch : 0 < canvas_size.2)
    (hx : (real_size.1 : ℚ) ≤ 1000000 * (canvas_size.1 : ℚ))
    (hy : (real_size.2 : ℚ) ≤ 1000000 * (canvas_size.2 : ℚ)) :
    ∃ c r : Point, scale_to_canvas p real_size canvas_size = Except.ok c ∧
      scale_to_real c real_size canvas_size = Except.ok r ∧
      |r.x - p.x| ≤ 1 ∧ |r.y - p.y| ≤ 1 := by
  refine ⟨⟨roundp (p.x * ((canvas_size.1 : ℚ) / (real_size.1 : ℚ))),
      roundp (p.y * ((canvas_size.2 : ℚ) / (real_size.2 : ℚ)))⟩,
    ⟨roundp (roundp (p.x * ((canvas_size.1 : ℚ) / (real_size.1 : ℚ))) *
        ((real_size.1 : ℚ) / (canvas_size.1 : ℚ))),
      roundp (roundp (p.y * ((canvas_size.2 : ℚ) / (real_size.2 : ℚ))) *
        ((real_size.2 : ℚ) / (canvas_size.2 : ℚ)))⟩, ?_, ?_, ?_, ?_⟩
  · simp [scale_to_canvas, hrw.ne', hrh.ne']
  · simp [scale_to_real, hcw.ne', hch.ne']
  · exact roundtrip_axis p.x real_size.1 canvas_size.1 hrw hcw hx
  · exact roundtrip_axis p.y real_size.2 canvas_size.2 hrh hch hy

/-- Witness for the amended C2 at a typical image/canvas pairing. -/
theorem claim2_roundtrip_amended_witness :
    ∃ c r : Point, scale_to_canvas ⟨100, 200⟩ (800, 600) (600, 450) = Except.ok c ∧
      scale_to_real c (800, 600) (600, 450) = Except.ok r ∧
      |r.x - (100 : ℚ)| ≤ 1 ∧ |r.y - (200 : ℚ)| ≤ 1 :=
  claim2_roundtrip_amended ⟨100, 200⟩ (800, 600) (600, 450)
    (by norm_num) (by norm_num) (by norm_num) (by norm_num) (by norm_num) (by norm_num)

/-- C7 counterexample: a zero *display* dimension does not make
`scale_to_canvas` fail — it silently returns the coordinate `(0, 0)` (and
symmetrically a zero *model* dimension does not make `scale_to_real` fail). -/
theorem claim7_zero_dimension_counterexample :
    scale_to_canvas ⟨5, 5⟩ (10, 10) (0, 0) = Except.ok ⟨0, 0⟩ ∧
    scale_to_real ⟨5, 5⟩ (0, 0) (10, 10) = Except.ok ⟨0, 0⟩ := by
  constructor <;>
    · simp only [scale_to_canvas, scale_to_real, roundp, COORDINATE_PRECISION]
      norm_num [round_eq]

/-- C7 (amended): each transform fails — with an untyped `ZeroDivisionError`,
not a dedicated `InvalidDimension` — exactly when the size it divides by has a
zero dimension: `scale_to_canvas` iff the model size does, `scale_to_real` iff
the display size does.  A zero dimension in the *other* size is silently
propagated as a zero coordinate. -/
theorem claim7_zero_dimension_amended (p : Point) (real_size canvas_size : ℤ × ℤ) :
    ((∃ e, scale_to_canvas p real_size canvas_size = Except.error e) ↔
      real_size.1 = 0 ∨ real_size.2 = 0) ∧
    ((∃ e, scale_to_real p real_size canvas_size = Except.error e) ↔
      canvas_size.1 = 0 ∨ canvas_size.2 = 0) := by
  constructor
  · constructor
    · rintro ⟨e, he⟩
      by_cases h : real_size.1 = 0 ∨ real_size.2 = 0
      · exact h
      · simp [scale_to_canvas, h] at he
    · intro h
      exact ⟨"ZeroDivisionError", by simp [scale_to_canvas, h]⟩
  · constructor
    · rintro ⟨e, he⟩
      by_cases h : canvas_size.1 = 0 ∨ canvas_size.2 = 0
      · exact h
      · simp [scale_to_real, h] at he
    · intro h
      exact ⟨"ZeroDivisionError", by simp [scale_to_real, h]⟩

/-! ### Landmark aggregation (C5) -/

/-- One raw MediaPipe landmark: normalized `x`, `y` and depth `z`. -/
structure NormPoint where
  x : ℚ
  y : ℚ
  z : ℚ
deriving DecidableEq, Repr

/-- `LandmarkAnalyzer.calculate_group_center` (`app.py` lines 152-186): collect
the in-range indices as pixel-space points and return their arithmetic mean;
`none` when the landmark list or the index list is empty or no index is in
range.  (`image_shape` is `(height, width)` as in the source.) -/
def calculate_group_center (landmarks : List NormPoint) (group_indices : List Nat)
    (image_shape : Nat × Nat) : Option Point :=
  if landmarks = [] ∨ group_indices = [] then
    none
  else
    let h : ℚ := image_shape.1
    let w : ℚ := image_shape.2
    let valid_points := group_indices.filterMap
      (fun idx => (landmarks.get? idx).map (fun point => Point.mk (point.x * w) (point.y * h)))
    if valid_points = [] then
      none
    else
      some ⟨(valid_points.map Point.x).sum / valid_points.length,
            (valid_points.map Point.y).sum / valid_points.length⟩

/-- `FaceDetector._get_enhanced_landmarks_internal` (`app.py` lines 362-383):
one entry per group whose center resolves; an unresolvable group's key is
absent (`none`), never a placeholder. -/
def get_enhanced_landmarks (landmarks : List NormPoint) (image_shape : Nat × Nat) :
    AdjState :=
  { left_eye_center :=
      calculate_group_center landmarks GroupName.left_eye_center.indices image_shape
    right_eye_center :=
      calculate_group_center landmarks GroupName.right_eye_center.indices image_shape
    nose_tip := calculate_group_center landmarks GroupName.nose_tip.indices image_shape
    nose_bridge := calculate_group_center landmarks GroupName.nose_bridge.indices image_shape
    left_nostril :=
      calculate_group_center landmarks GroupName.left_nostril.indices image_shape
    right_nostril :=
      calculate_group_center landmarks GroupName.right_nostril.indices image_shape }

/-- C5: when no supplied index is in range, the group center is `none` (absent,
never an origin point), and the aggregated map binds every group exactly to its
center — so an unresolvable group's key is absent, not a placeholder. -/
theorem claim5_absent_group (landmarks : List NormPoint) (group_indices : List Nat)
    (image_shape : Nat × Nat) (g : GroupName)
    (hno : ∀ i ∈ group_indices, ¬ i < landmarks.length) :
    calculate_group_center landmarks group_indices image_shape = none ∧
    (get_enhanced_landmarks landmarks image_shape).get g =
      calculate_group_center landmarks g.indices image_shape := by
  constructor
  · have hempty : group_indices.filterMap
        (fun idx => (landmarks.get? idx).map
          (fun point => Point.mk (point.x * (image_shape.2 : ℚ))
            (point.y * (image_shape.1 : ℚ)))) = [] := by
      rw [List.filterMap_eq_nil_iff]
      intro idx hidx
      have hnone : landmarks.get? idx = none := by
        rw [List.get?_eq_none]
        have := hno idx hidx
        omega
      rw [hnone]
      rfl
    simp only [calculate_group_center]
    split
    · rfl
    · simp [hempty]
  · cases g <;> rfl

/-- Witness for C5: one landmark, both supplied indices out of range. -/
theorem claim5_absent_group_witness :
    calculate_group_center [⟨1/10, 1/10, 0⟩] [5, 7] (100, 100) = none ∧
    (get_enhanced_landmarks [⟨1/10, 1/10, 0⟩] (100, 100)).get GroupName.nose_tip =
      calculate_group_center [⟨1/10, 1/10, 0⟩] GroupName.nose_tip.indices (100, 100) :=
  claim5_absent_group [⟨1/10, 1/10, 0⟩] [5, 7] (100, 100) GroupName.nose_tip (by decide)

/-! ### Confidence assessment (C6) -/

/-- The string key of each group in `AppConfig.LANDMARK_GROUPS`. -/
def GroupName.key : GroupName → String
  | .left_eye_center => "left_eye_center"
  | .right_eye_center => "right_eye_center"
  | .nose_tip => "nose_tip"
  | .nose_bridge => "nose_bridge"
  | .left_nostril => "left_nostril"
  | .right_nostril => "right_nostril"

/-- The string-keyed `AppConfig.LANDMARK_GROUPS` dictionary. -/
def LANDMARK_GROUPS : List (String × List Nat) :=
  GroupName.all.map (fun g => (g.key, g.indices))

/-- `point_name in AppConfig.LANDMARK_GROUPS` followed by the lookup. -/
def lookupGroup (name : String) : Option (List Nat) :=
  (LANDMARK_GROUPS.find? (fun kv => kv.1 == name)).map Prod.snd

/-- The dictionary returned by `assess_landmark_confidence`.  The early returns
in the source build a dictionary holding only `confidence`, `status` and
`color`; the absent `variance`/`point_count` keys are the `none` cases. -/
structure ConfResult where
  confidence : ℚ
  status : String
  color : String
  variance : Option ℚ
  point_count : Option Nat
deriving DecidableEq, Repr

/-- `np.var`: population variance of a list of values. -/
def npVar (l : List ℚ) : ℚ :=
  let m := l.sum / l.length
  (l.map (fun d => (d - m) ^ 2)).sum / l.length

/-- `LandmarkAnalyzer.assess_landmark_confidence` (`app.py` lines 188-250).
`sqrtq` stands for `math.sqrt`, which is irrational in general and therefore a
parameter of the embedding; no property of it is needed for the claims proved
here.  (`image_shape` is `(height, width)`; the source drops the channel count
with `shape[:2]` before use.) -/
def assess_landmark_confidence (sqrtq : ℚ → ℚ) (landmarks : List NormPoint)
    (point_name : String) (image_shape : Nat × Nat) : ConfResult :=
  match lookupGroup point_name with
  | none =>
    { confidence := 0, status := "unknown", color := "#808080",
      variance := none, point_count := none }
  | some group_indices =>
    let h : ℚ := image_shape.1
    let w : ℚ := image_shape.2
    let points := group_indices.filterMap
      (fun idx => (landmarks.get? idx).map
        (fun point => NormPoint.mk (point.x * w) (point.y * h) point.z))
    if points.length < 2 then
      { confidence := 0, status := "insufficient_points", color := "#FF0000",
        variance := none, point_count := none }
    else
      match calculate_group_center landmarks group_indices image_shape with
      | none =>
        { confidence := 0, status := "calculation_failed", color := "#FF0000",
          variance := none, point_count := none }
      | some center =>
        let distances := points.map
          (fun point => sqrtq ((point.x - center.x) ^ 2 + (point.y - center.y) ^ 2))
        let variance := npVar distances
        let confidence := max 0 (min 1 (1 / (1 + variance / 10)))
        let sc : String × String :=
          if 8 / 10 < confidence then ("high", "#00FF00")
          else if 5 / 10 < confidence then ("medium", "#FFAA00")
          else ("low", "#FF0000")
        { confidence := confidence, status := sc.1, color := sc.2,
          variance := some variance, point_count := some points.length }

/-- C6 counterexample: the `unknown` and `insufficient_points` early returns
carry no `variance` and no `point_count` key, and the insufficient tier is the
string `insufficient_points`, not `insufficient`. -/
theorem claim6_confidence_fields_counterexample :
    (assess_landmark_confidence (fun _ => 0) [] "eyebrow" (100, 100)).variance = none ∧
    (assess_landmark_confidence (fun _ => 0) [] "eyebrow" (100, 100)).status = "unknown" ∧
    (assess_landmark_confidence (fun _ => 0) [⟨0, 0, 0⟩] "nose_tip" (100, 100)).variance
      = none ∧
    (assess_landmark_confidence (fun _ => 0) [⟨0, 0, 0⟩] "nose_tip" (100, 100)).status
      = "insufficient_points" ∧
    (assess_landmark_confidence (fun _ => 0) [⟨0, 0, 0⟩] "nose_tip" (100, 100)).point_count
      = none := by
  refine ⟨?_, ?_, ?_, ?_, ?_⟩ <;> rfl

/-- C6 (amended): the confidence is always in `[0, 1]` and the tier is one of
`high`, `medium`, `low`, `insufficient_points`, `unknown`,
`calculation_failed`; the `variance` and `point_count` fields are present
exactly in the fully-computed `high`/`medium`/`low` outcome — the three early
returns carry only confidence, tier and color. -/
theorem claim6_confidence_fields_amended (sqrtq : ℚ → ℚ) (landmarks : List NormPoint)
    (point_name : String) (image_shape : Nat × Nat) (r : ConfResult)
    (hr : r = assess_landmark_confidence sqrtq landmarks point_name image_shape) :
    0 ≤ r.confidence ∧ r.confidence ≤ 1 ∧
    (r.status = "high" ∨ r.status = "medium" ∨ r.status = "low" ∨
      r.status = "insufficient_points" ∨ r.status = "unknown" ∨
      r.status = "calculation_failed") ∧
    ((r.variance.isSome ∧ r.point_count.isSome) ↔
      (r.status = "high" ∨ r.status = "medium" ∨ r.status = "low")) := by
  subst hr
  rw [assess_landmark_confidence]
  cases lookupGroup point_name with
  | none => refine ⟨le_refl 0, by norm_num, by tauto, by simp⟩
  | some group_indices =>
    simp only
    split
    · refine ⟨le_refl 0, by norm_num, by tauto, by simp⟩
    · cases calculate_group_center landmarks group_indices image_shape with
      | none => refine ⟨le_refl 0, by norm_num, by tauto, by simp⟩
      | some center =>
        refine ⟨le_max_left _ _, max_le (by norm_num) (min_le_left _ _), ?_, ?_⟩
        · dsimp only
          split_ifs <;> simp
        · dsimp only
          split_ifs <;> simp

/-- Witness for the amended C6 at a concrete unknown-name call. -/
theorem claim6_confidence_fields_amended_witness :
    0 ≤ (assess_landmark_confidence (fun _ => 0) [] "eyebrow" (100, 100)).confidence ∧
    (assess_landmark_confidence (fun _ => 0) [] "eyebrow" (100, 100)).confidence ≤ 1 ∧
    ((assess_landmark_confidence (fun _ => 0) [] "eyebrow" (100, 100)).status = "high" ∨
      (assess_landmark_confidence (fun _ => 0) [] "eyebrow" (100, 100)).status = "medium" ∨
      (assess_landmark_confidence (fun _ => 0) [] "eyebrow" (100, 100)).status = "low" ∨
      (assess_landmark_confidence (fun _ => 0) [] "eyebrow" (100, 100)).status
        = "insufficient_points" ∨
      (assess_landmark_confidence (fun _ => 0) [] "eyebrow" (100, 100)).status = "unknown" ∨
      (assess_landmark_confidence (fun _ => 0) [] "eyebrow" (100, 100)).status
        = "calculation_failed") ∧
    (((assess_landmark_confidence (fun _ => 0) [] "eyebrow" (100, 100)).variance.isSome ∧
      (assess_landmark_confidence (fun _ => 0) [] "eyebrow" (100, 100)).point_count.isSome) ↔
      ((assess_landmark_confidence (fun _ => 0) [] "eyebrow" (100, 100)).status = "high" ∨
        (assess_landmark_confidence (fun _ => 0) [] "eyebrow" (100, 100)).status = "medium" ∨
        (assess_landmark_confidence (fun _ => 0) [] "eyebrow" (100, 100)).status = "low")) :=
  claim6_confidence_fields_amended (fun _ => 0) [] "eyebrow" (100, 100) _ rfl

/-! ### Anatomical validation (C8) -/

/-- The metrics dictionary of `validate_anatomical_constraints`
(`app_final.py`): built up key by key; the early return leaves it empty. -/
structure Metrics where
  nose_length : Option ℚ := none
  nostril_distance : Option ℚ := none
  nose_angle_degrees : Option ℚ := none
deriving DecidableEq, Repr

/-- The result dictionary of `validate_anatomical_constraints`. -/
structure ValidationResult where
  is_valid : Bool
  warnings : List String
  metrics : Metrics
deriving DecidableEq, Repr

/-- The angle warning; Python formats the measured value to one decimal inside
the message. -/
def angle_warning (deg : ℚ) : String :=
  "鼻の角度が不自然です（" ++ toString deg ++ "度）"

/-- `validate_anatomical_constraints` (`app_final.py` lines 196-256): if any of
the four required points is missing, return valid with no warnings and empty
metrics; otherwise compute the three metrics and collect all triggered
warnings.  `sqrtq` stands for `math.sqrt` and `atan2deg` for
`math.degrees(math.atan2(·, ·))`, both irrational in general. -/
def validate_anatomical_constraints (sqrtq : ℚ → ℚ) (atan2deg : ℚ → ℚ → ℚ)
    (adjustments : AdjState) : ValidationResult :=
  match adjustments.nose_tip, adjustments.nose_bridge,
      adjustments.left_nostril, adjustments.right_nostril with
  | some nose_tip, some nose_bridge, some left_nostril, some right_nostril =>
    let nose_length :=
      sqrtq ((nose_tip.x - nose_bridge.x) ^ 2 + (nose_tip.y - nose_bridge.y) ^ 2)
    let nostril_distance :=
      sqrtq ((left_nostril.x - right_nostril.x) ^ 2 + (left_nostril.y - right_nostril.y) ^ 2)
    let nose_angle_degrees :=
      |atan2deg (nose_tip.x - nose_bridge.x) (nose_tip.y - nose_bridge.y)|
    let warnings :=
      (if nose_length < 10 then ["鼻の長さが短すぎます"]
        else if 200 < nose_length then ["鼻の長さが長すぎます"] else []) ++
      (if nostril_distance < 5 then ["小鼻間の距離が近すぎます"]
        else if 100 < nostril_distance then ["小鼻間の距離が遠すぎます"] else []) ++
      (if 30 < nose_angle_degrees then [angle_warning nose_angle_degrees] else [])
    { is_valid := warnings.length == 0
      warnings := warnings
      metrics :=
        { nose_length := some nose_length
          nostril_distance := some nostril_distance
          nose_angle_degrees := some nose_angle_degrees } }
  | _, _, _, _ => { is_valid := true, warnings := [], metrics := {} }

/-- C8: whenever at least one of the four required points is absent (including
the empty map), the validator returns exactly
`{isValid: true, warnings: [], metrics: {}}`. -/
theorem claim8_validator_gating (sqrtq : ℚ → ℚ) (atan2deg : ℚ → ℚ → ℚ)
    (adjustments : AdjState)
    (hmiss : adjustments.nose_tip = none ∨ adjustments.nose_bridge = none ∨
      adjustments.left_nostril = none ∨ adjustments.right_nostril = none) :
    validate_anatomical_constraints sqrtq atan2deg adjustments =
      { is_valid := true, warnings := [], metrics := {} } := by
  rw [validate_anatomical_constraints]
  cases hnt : adjustments.nose_tip <;>
    cases hnb : adjustments.nose_bridge <;>
      cases hln : adjustments.left_nostril <;>
        cases hrn : adjustments.right_nostril <;>
          simp_all

/-- Witness for C8 at the empty adjustments map. -/
theorem claim8_validator_gating_witness :
    validate_anatomical_constraints (fun _ => 0) (fun _ _ => 0) {} =
      { is_valid := true, warnings := [], metrics := {} } :=
  claim8_validator_gating (fun _ => 0) (fun _ _ => 0) {} (Or.inl rfl)

/-! ### Landmark adjustment (C10) -/

/-- The representative raw index per group in `FaceDetector.adjust_landmarks`
(`app.py` lines 452-459). -/
def point_indices : GroupName → Nat
  | .nose_tip => 1
  | .nose_bridge => 6
  | .left_nostril => 131
  | .right_nostril => 102
  | .left_eye_center => 159
  | .right_eye_center => 386

/-- One iteration of the `adjust_landmarks` loop: if the representative index
is in range, rewrite that landmark's `x`/`y` to the override divided by image
width/height (its `z` is untouched). -/
def adjustStep (w h : ℚ) (acc : List NormPoint) (pc : GroupName × Point) :
    List NormPoint :=
  let idx := point_indices pc.1
  if idx < acc.length then
    match acc[idx]? with
    | some old => acc.set idx ⟨pc.2.x / w, pc.2.y / h, old.z⟩
    | none => acc
  else acc

/-- `FaceDetector.adjust_landmarks` (`app.py` lines 436-469): deep-copy the
landmark list (the source never mutates its input) and apply every override.
Every adjustment key is one of the six group names, so the
`point_name in point_indices` check of the source always passes. -/
def adjust_landmarks (landmarks : List NormPoint) (adjustments : AdjState)
    (image_shape : Nat × Nat) : List NormPoint :=
  adjustments.items.foldl (adjustStep (image_shape.2 : ℚ) (image_shape.1 : ℚ)) landmarks

lemma adjustStep_length (w h : ℚ) (acc : List NormPoint) (pc : GroupName × Point) :
    (adjustStep w h acc pc).length = acc.length := by
  rw [adjustStep]
  split
  · split
    · rw [List.length_set]
    · rfl
  · rfl

lemma adjustStep_getElem? (w h : ℚ) (acc : List NormPoint) (pc : GroupName × Point)
    (j : Nat) :
    (adjustStep w h acc pc)[j]? =
      if point_indices pc.1 = j then
        acc[j]?.map (fun old => NormPoint.mk (pc.2.x / w) (pc.2.y / h) old.z)
      else acc[j]? := by
  rw [adjustStep]
  by_cases hj : point_indices pc.1 = j
  · rw [if_pos hj]
    by_cases hlt : point_indices pc.1 < acc.length
    · rw [if_pos hlt]
      cases hm : acc[point_indices pc.1]? with
      | none =>
        rw [List.getElem?_eq_none_iff] at hm
        omega
      | some old =>
        subst hj
        rw [List.getElem?_set_self']
        rw [hm]
        rfl
    · rw [if_neg hlt]
      subst hj
      have hnone : acc[point_indices pc.1]? = none := by
        rw [List.getElem?_eq_none_iff]
        omega
      rw [hnone]
      rfl
  · rw [if_neg hj]
    by_cases hlt : point_indices pc.1 < acc.length
    · rw [if_pos hlt]
      cases hm : acc[point_indices pc.1]? with
      | none => rfl
      | some old => rw [List.getElem?_set_ne hj]
    · rw [if_neg hlt]

/-- Characterisation of the `adjust_landmarks` fold over any override list with
pairwise distinct representative indices. -/
lemma adjust_fold_spec (w h : ℚ) (ps : List (GroupName × Point)) (l : List NormPoint)
    (hpw : ps.Pairwise (fun a b => point_indices a.1 ≠ point_indices b.1)) :
    (ps.foldl (adjustStep w h) l).length = l.length ∧
    ∀ j, (ps.foldl (adjustStep w h) l)[j]? =
      match ps.find? (fun pc => point_indices pc.1 == j) with
      | some pc => l[j]?.map (fun old => NormPoint.mk (pc.2.x / w) (pc.2.y / h) old.z)
      | none => l[j]? := by
  induction ps generalizing l with
  | nil => exact ⟨rfl, fun j => rfl⟩
  | cons pc rest ih =>
    obtain ⟨hhead, hrest⟩ := List.pairwise_cons.mp hpw
    obtain ⟨ihlen, ihget⟩ := ih (adjustStep w h l pc) hrest
    rw [List.foldl_cons]
    refine ⟨by rw [ihlen, adjustStep_length], fun j => ?_⟩
    rw [ihget j]
    by_cases hj : point_indices pc.1 = j
    · have hfind : rest.find? (fun pc' => point_indices pc'.1 == j) = none := by
        rw [List.find?_eq_none]
        intro pc' hpc'
        simp only [beq_iff_eq]
        rw [← hj]
        exact (hhead pc' hpc').symm
      rw [hfind, List.find?_cons_of_pos _ (by simp [hj]), adjustStep_getElem?, if_pos hj]
    · rw [List.find?_cons_of_neg _ (by simp [hj])]
      have hstep : (adjustStep w h l pc)[j]? = l[j]? := by
        rw [adjustStep_getElem?, if_neg hj]
      cases rest.find? (fun pc' => point_indices pc'.1 == j) with
      | none => exact hstep
      | some pc' => rw [hstep]

lemma filterMap_pair_fst_sublist {α β : Type} (f : α → Option β) (l : List α) :
    List.Sublist ((l.filterMap (fun g => (f g).map (fun p => (g, p)))).map Prod.fst) l := by
  induction l with
  | nil => simp
  | cons x t ih =>
    rw [List.filterMap_cons]
    cases hfx : f x with
    | none =>
      simp only [Option.map_none']
      exact ih.cons x
    | some p =>
      simp only [Option.map_some']
      exact ih.cons₂ x

/-- The overrides list carries pairwise distinct representative indices. -/
lemma items_pairwise (a : AdjState) :
    a.items.Pairwise (fun x y => point_indices x.1 ≠ point_indices y.1) := by
  have hsub : List.Sublist (a.items.map Prod.fst) GroupName.all :=
    filterMap_pair_fst_sublist (fun g => a.get g) GroupName.all
  have hmap : (GroupName.all.map point_indices).Nodup := by decide
  have hnd : ((a.items.map Prod.fst).map point_indices).Nodup :=
    (hsub.map point_indices).nodup hmap
  rw [List.map_map] at hnd
  have := List.pairwise_map.mp hnd
  exact this.imp (fun hne => hne)

lemma mem_items {a : AdjState} {g : GroupName} {p : Point} :
    (g, p) ∈ a.items ↔ a.get g = some p := by
  rw [AdjState.items, List.mem_filterMap]
  constructor
  · rintro ⟨g', -, hf⟩
    cases hga : a.get g' with
    | none => rw [hga] at hf; simp at hf
    | some q =>
      rw [hga] at hf
      simp only [Option.map_some', Option.some.injEq, Prod.mk.injEq] at hf
      rw [← hf.1, hga, hf.2]
  · intro h
    refine ⟨g, by cases g <;> decide, ?_⟩
    rw [h]
    rfl

lemma find?_of_mem_pairwise {ps : List (GroupName × Point)} {g : GroupName} {p : Point}
    (hpw : ps.Pairwise (fun x y => point_indices x.1 ≠ point_indices y.1))
    (hmem : (g, p) ∈ ps) :
    ps.find? (fun pc => point_indices pc.1 == point_indices g) = some (g, p) := by
  induction ps with
  | nil => simp at hmem
  | cons x t ih =>
    obtain ⟨hhead, hrest⟩ := List.pairwise_cons.mp hpw
    rcases List.mem_cons.mp hmem with heq | hmem'
    · rw [← heq]
      rw [List.find?_cons_of_pos _ (by simp [← heq])]
    · have hx : point_indices x.1 ≠ point_indices g := hhead (g, p) hmem'
      rw [List.find?_cons_of_neg _ (by simp [hx])]
      exact ih hrest hmem'

/-- C10: `adjust_landmarks` preserves the landmark count; for each overridden
group whose representative index is in range, exactly that entry is rewritten
to the override divided by image width/height (depth `z` untouched); every
index that is no overridden group's representative is returned unchanged.
(The input list itself is never mutated: the source deep-copies it and the
embedding is a pure function of it.) -/
theorem claim10_adjust_landmarks (landmarks : List NormPoint) (adjustments : AdjState)
    (image_shape : Nat × Nat) (hh : 0 < image_shape.1) (hw : 0 < image_shape.2) :
    (adjust_landmarks landmarks adjustments image_shape).length = landmarks.length ∧
    (∀ g c old, adjustments.get g = some c →
      landmarks[point_indices g]? = some old →
      (adjust_landmarks landmarks adjustments image_shape)[point_indices g]? =
        some ⟨c.x / (image_shape.2 : ℚ), c.y / (image_shape.1 : ℚ), old.z⟩) ∧
    (∀ j, (∀ g c, adjustments.get g = some c → point_indices g ≠ j) →
      (adjust_landmarks landmarks adjustments image_shape)[j]? = landmarks[j]?) := by
  obtain ⟨hlen, hget⟩ := adjust_fold_spec (image_shape.2 : ℚ) (image_shape.1 : ℚ)
    adjustments.items landmarks (items_pairwise adjustments)
  refine ⟨hlen, ?_, ?_⟩
  · intro g c old hgc hold
    have hfind := find?_of_mem_pairwise (items_pairwise adjustments) (mem_items.mpr hgc)
    rw [adjust_landmarks, hget (point_indices g), hfind, hold]
    rfl
  · intro j hnone
    have hfind : adjustments.items.find? (fun pc => point_indices pc.1 == j) = none := by
      rw [List.find?_eq_none]
      rintro ⟨g1, c1⟩ hpc
      simp only [beq_iff_eq]
      exact hnone g1 c1 (mem_items.mp hpc)
    rw [adjust_landmarks, hget j, hfind]

/-- Witness for C10: two landmarks, `nose_tip` overridden (index 1 in range). -/
theorem claim10_adjust_landmarks_witness :
    (adjust_landmarks [⟨1/2, 1/2, 3⟩, ⟨1/4, 1/4, 5⟩] { nose_tip := some ⟨30, 40⟩ }
        (100, 200)).length = 2 ∧
    (∀ g c old, ({ nose_tip := some ⟨30, 40⟩ } : AdjState).get g = some c →
      ([⟨1/2, 1/2, 3⟩, ⟨1/4, 1/4, 5⟩] : List NormPoint)[point_indices g]? = some old →
      (adjust_landmarks [⟨1/2, 1/2, 3⟩, ⟨1/4, 1/4, 5⟩] { nose_tip := some ⟨30, 40⟩ }
          (100, 200))[point_indices g]? =
        some ⟨c.x / ((200 : Nat) : ℚ), c.y / ((100 : Nat) : ℚ), old.z⟩) ∧
    (∀ j, (∀ g c, ({ nose_tip := some ⟨30, 40⟩ } : AdjState).get g = some c →
        point_indices g ≠ j) →
      (adjust_landmarks [⟨1/2, 1/2, 3⟩, ⟨1/4, 1/4, 5⟩] { nose_tip := some ⟨30, 40⟩ }
          (100, 200))[j]? = ([⟨1/2, 1/2, 3⟩, ⟨1/4, 1/4, 5⟩] : List NormPoint)[j]?) := by
  have h := claim10_adjust_landmarks [⟨1/2, 1/2, 3⟩, ⟨1/4, 1/4, 5⟩]
    { nose_tip := some ⟨30, 40⟩ } (100, 200) (by decide) (by decide)
  simpa using h

/-! ### Drag-commit path (C9) -/

/-- A circle object of the drawable canvas's JSON, with the keys
`update_enhanced_landmark_positions` reads via `obj.get(...)`.  The canvas
only ever carries names of the six predefined groups, so `name` is an optional
`GroupName`. -/
structure CanvasObject where
  type : String
  name : Option GroupName
  left : Option ℚ
  top : Option ℚ
  radius : Option ℚ
  originalX : Option ℚ
  originalY : Option ℚ
deriving DecidableEq, Repr

/-- `current_center_x = obj.get("left", 0.0) + obj.get("radius", 0.0)`. -/
def CanvasObject.centerX (o : CanvasObject) : ℚ := o.left.getD 0 + o.radius.getD 0

/-- `current_center_y = obj.get("top", 0.0) + obj.get("radius", 0.0)`. -/
def CanvasObject.centerY (o : CanvasObject) : ℚ := o.top.getD 0 + o.radius.getD 0

/-- `original_center_x = obj.get("originalX", current_center_x)`. -/
def CanvasObject.origX (o : CanvasObject) : ℚ := o.originalX.getD o.centerX

/-- `original_center_y = obj.get("originalY", current_center_y)`. -/
def CanvasObject.origY (o : CanvasObject) : ℚ := o.originalY.getD o.centerY

/-- One iteration of the object loop in `update_enhanced_landmark_positions`
(`app.py` lines 950-986): the source compares
`math.sqrt(dx^2 + dy^2) >= movement_threshold`; the embedding uses the
equivalent squared comparison (the threshold slider ranges over 1.0-20.0, so
the threshold is nonnegative and squaring both sides is exact).  A
`ZeroDivisionError` escaping `scale_to_real` is the `.error` case, caught by
the surrounding `except` with no state mutated. -/
def processObject (s : Session) (key_points : List GroupName)
    (movement_threshold : ℚ) (real_size canvas_size : ℤ × ℤ) (obj : CanvasObject) :
    Except String (Option (GroupName × Point)) :=
  match obj.name with
  | none => .ok none
  | some point_name =>
    if obj.type = "circle" ∧ point_name ∈ key_points then
      if movement_threshold ^ 2 ≤
          (obj.centerX - obj.origX) ^ 2 + (obj.centerY - obj.origY) ^ 2 then
        match scale_to_real ⟨obj.centerX, obj.centerY⟩ real_size canvas_size with
        | .error e => .error e
        | .ok real_coords =>
          match s.manual_adjustments.get point_name with
          | none => .ok (some (point_name, real_coords))
          | some current_coords =>
            if 1 / 2 < |current_coords.x - real_coords.x| ∨
                1 / 2 < |current_coords.y - real_coords.y| then
              .ok (some (point_name, real_coords))
            else
              .ok none
      else
        .ok none
    else
      .ok none

/-- The `updated_positions` accumulation of the object loop; the first raised
exception aborts the whole update. -/
def collect_updates (s : Session) (key_points : List GroupName)
    (movement_threshold : ℚ) (real_size canvas_size : ℤ × ℤ) :
    List CanvasObject → Except String (List (GroupName × Point))
  | [] => .ok []
  | obj :: rest =>
    match processObject s key_points movement_threshold real_size canvas_size obj with
    | .error e => .error e
    | .ok r =>
      match collect_updates s key_points movement_threshold real_size canvas_size rest with
      | .error e => .error e
      | .ok rs =>
        .ok (match r with | none => rs | some u => u :: rs)

/-- `update_enhanced_landmark_positions` (`app.py` lines 924-1009): when the
loop marks `state_changed`, save the history snapshot first and then install
every updated position; otherwise (or on an exception) leave the session
untouched. -/
def update_enhanced_landmark_positions (s : Session) (key_points : List GroupName)
    (movement_threshold : ℚ) (real_size canvas_size : ℤ × ℤ)
    (objects : List CanvasObject) : Session :=
  match collect_updates s key_points movement_threshold real_size canvas_size objects with
  | .error _ => s
  | .ok updated_positions =>
    if updated_positions.isEmpty then
      s
    else
      updated_positions.foldl (fun t u => apply_adjustment t u.1 u.2)
        (save_adjustment_to_history s)

/-- C9: a drag of a named circle that meets the movement threshold commits the
converted model-space coordinate (with a history snapshot taken first) exactly
when no override exists for the group or the new coordinate differs from the
stored override by more than 0.5 model units in x or in y; otherwise the drag
leaves the adjustments and both history stacks untouched. -/
theorem claim9_drag_commit (s : Session) (obj : CanvasObject) (g : GroupName)
    (key_points : List GroupName) (movement_threshold : ℚ)
    (real_size canvas_size : ℤ × ℤ)
    (htype : obj.type = "circle") (hname : obj.name = some g) (hkp : g ∈ key_points)
    (hcw : canvas_size.1 ≠ 0) (hch : canvas_size.2 ≠ 0)
    (hmove : movement_threshold ^ 2 ≤
      (obj.centerX - obj.origX) ^ 2 + (obj.centerY - obj.origY) ^ 2) :
    ∃ real_coords : Point,
      scale_to_real ⟨obj.centerX, obj.centerY⟩ real_size canvas_size =
        Except.ok real_coords ∧
      ((s.manual_adjustments.get g = none ∨
        (∃ c, s.manual_adjustments.get g = some c ∧
          (1 / 2 < |c.x - real_coords.x| ∨ 1 / 2 < |c.y - real_coords.y|))) →
        update_enhanced_landmark_positions s key_points movement_threshold
            real_size canvas_size [obj] =
          apply_adjustment (save_adjustment_to_history s) g real_coords) ∧
      (¬ (s.manual_adjustments.get g = none ∨
        (∃ c, s.manual_adjustments.get g = some c ∧
          (1 / 2 < |c.x - real_coords.x| ∨ 1 / 2 < |c.y - real_coords.y|))) →
        update_enhanced_landmark_positions s key_points movement_threshold
            real_size canvas_size [obj] = s) := by
  have hok : scale_to_real ⟨obj.centerX, obj.centerY⟩ real_size canvas_size =
      Except.ok ⟨roundp (obj.centerX * ((real_size.1 : ℚ) / (canvas_size.1 : ℚ))),
        roundp (obj.centerY * ((real_size.2 : ℚ) / (canvas_size.2 : ℚ)))⟩ := by
    simp [scale_to_real, hcw, hch]
  refine ⟨_, hok, ?_, ?_⟩
  · intro hcommit
    cases hcur : s.manual_adjustments.get g with
    | none =>
      rw [update_enhanced_landmark_positions, collect_updates, processObject, hname]
      dsimp only
      rw [if_pos ⟨htype, hkp⟩, if_pos hmove, hok]
      dsimp only
      rw [hcur]
      rfl
    | some c =>
      have hdiff : 1 / 2 <
          |c.x - roundp (obj.centerX * ((real_size.1 : ℚ) / (canvas_size.1 : ℚ)))| ∨
          1 / 2 < |c.y - roundp (obj.centerY * ((real_size.2 : ℚ) / (canvas_size.2 : ℚ)))| := by
        rcases hcommit with h | ⟨c', hc', hgt⟩
        · rw [hcur] at h
          exact absurd h (by simp)
        · rw [hcur] at hc'
          cases hc'
          exact hgt
      rw [update_enhanced_landmark_positions, collect_updates, processObject, hname]
      dsimp only
      rw [if_pos ⟨htype, hkp⟩, if_pos hmove, hok]
      dsimp only
      rw [hcur]
      dsimp only
      rw [if_pos hdiff]
      rfl
  · intro hnc
    obtain ⟨h1, h2⟩ := not_or.mp hnc
    cases hcur : s.manual_adjustments.get g with
    | none => exact absurd hcur h1
    | some c =>
      have hdiff : ¬ (1 / 2 <
          |c.x - roundp (obj.centerX * ((real_size.1 : ℚ) / (canvas_size.1 : ℚ)))| ∨
          1 / 2 < |c.y - roundp (obj.centerY * ((real_size.2 : ℚ) / (canvas_size.2 : ℚ)))|) := by
        intro hgt
        exact h2 ⟨c, hcur, hgt⟩
      rw [update_enhanced_landmark_positions, collect_updates, processObject, hname]
      dsimp only
      rw [if_pos ⟨htype, hkp⟩, if_pos hmove, hok]
      dsimp only
      rw [hcur]
      dsimp only
      rw [if_neg hdiff]
      rfl

/-- A concrete dragged circle: moved 50 display pixels to the right. -/
def dragObj : CanvasObject :=
  { type := "circle", name := some GroupName.nose_tip, left := some 90, top := some 40,
    radius := some 10, originalX := some 50, originalY := some 50 }

/-- Witness for C9: the drag of `dragObj` against a fresh session. -/
theorem claim9_drag_commit_witness :
    ∃ real_coords : Point,
      scale_to_real ⟨dragObj.centerX, dragObj.centerY⟩ (800, 600) (600, 450) =
        Except.ok real_coords ∧
      ((initial_session.manual_adjustments.get GroupName.nose_tip = none ∨
        (∃ c, initial_session.manual_adjustments.get GroupName.nose_tip = some c ∧
          (1 / 2 < |c.x - real_coords.x| ∨ 1 / 2 < |c.y - real_coords.y|))) →
        update_enhanced_landmark_positions initial_session [GroupName.nose_tip] 5
            (800, 600) (600, 450) [dragObj] =
          apply_adjustment (save_adjustment_to_history initial_session)
            GroupName.nose_tip real_coords) ∧
      (¬ (initial_session.manual_adjustments.get GroupName.nose_tip = none ∨
        (∃ c, initial_session.manual_adjustments.get GroupName.nose_tip = some c ∧
          (1 / 2 < |c.x - real_coords.x| ∨ 1 / 2 < |c.y - real_coords.y|))) →
        update_enhanced_landmark_positions initial_session [GroupName.nose_tip] 5
            (800, 600) (600, 450) [dragObj] = initial_session) :=
  claim9_drag_commit initial_session dragObj GroupName.nose_tip [GroupName.nose_tip] 5
    (800, 600) (600, 450) rfl rfl (by decide) (by decide) (by decide)
    (by norm_num [dragObj, CanvasObject.centerX, CanvasObject.centerY,
      CanvasObject.origX, CanvasObject.origY])

end FaceParts
